import Mathlib

/-!
# mmc-cli: configuration resolution at start-up (`cmd/root.go`)

The program is a command-line scaffold.  Its one piece of behaviour is
`initConfig`, which selects a configuration file (the `--config` flag or a
default next to the executable), turns on the environment overlay and tries to
read the file, and `Execute`, which maps the root command's result to the
process exit code.

`initConfig` and `Execute` are transcribed statement by statement from
`cmd/root.go`.  The calls they make into `viper`, `cobra`, `os`, `fmt` and
`path/filepath` are library calls; each is modelled by a definition of the same
name that follows the library's documented behaviour.  Everything the
operating system decides (the flag value, the result of `os.Executable`, the
file system, the environment, and the format decoders) is collected in `World`
and quantified over.
-/

namespace MmcCli

/-! ## Data model -/

/-- A Go `float64`, by its IEEE 754 binary64 bit pattern (sign bit, eleven
exponent bits, fifty-two fraction bits). -/
structure Float64 where
  bits : Nat
  isLt : bits < 2 ^ 64

/-- A configuration value as Go holds it after decoding: `nil`, a `bool`, a
`float64` (every JSON number), a `string`, a slice `[]any`, a map
`map[string]any`, or some other Go value that the decoder of another format
can yield (an integer, a time), kept by its printed form. -/
inductive Value where
  | null
  | bool (b : Bool)
  | num (f : Float64)
  | str (s : String)
  | arr (items : List Value)
  | obj (fields : List (String × Value))
  | other (goValue : String)

/-- The key/value mapping held by the resolver (viper's `config` layer). -/
abbrev Settings := List (String × Value)

/-- Everything outside the program that `initConfig` depends on.

* `cfgFile`: the value of the package variable `cfgFile`, bound to `--config`;
* `executable`: the result of `os.Executable()`, the path or an error text;
* `absPathify`: viper's normalisation of a search path to an absolute, cleaned path;
* `fileExists`: whether a path names an existing file (viper's `exists`);
* `readFile`: the content of a file, `none` when it cannot be read;
* `unmarshal`: the outcome of viper's `unmarshalReader` for a format name and
  a file content: the mapping the format's decoder reads, with its keys
  lower-cased as viper stores them; `none` is a parse error;
* `lookupEnv`: the process environment, as `os.LookupEnv` reads it: the value
  of the variable of that name, `none` when the variable is not set;
* `unicodeLower`, `unicodeUpper`: the case tables of Go's `unicode.ToLower`
  and `unicode.ToUpper` for the characters outside ASCII. -/
structure World where
  cfgFile : String
  executable : Except String String
  absPathify : String → String
  fileExists : String → Bool
  readFile : String → Option String
  unmarshal : String → String → Option Settings
  lookupEnv : String → Option String
  unicodeLower : Char → Char
  unicodeUpper : Char → Char

/-- The fields of the global `viper` instance that `initConfig` touches. -/
structure Viper where
  configFile : String
  configPaths : List String
  configType : String
  configName : String
  automaticEnvApplied : Bool
  config : Settings

/-- The instance as `viper.New()` creates it: nothing configured, the config
name at its default `config`, no environment overlay, empty mapping. -/
def Viper.New : Viper :=
  { configFile := "", configPaths := [], configType := "", configName := "config",
    automaticEnvApplied := false, config := [] }

/-- The library calls `initConfig` can make, in the order it makes them. -/
inductive Call where
  | SetConfigFile (path : String)
  | osExecutable
  | CheckErr
  | AddConfigPath (dir : String)
  | SetConfigType (format : String)
  | SetConfigName (name : String)
  | AutomaticEnv
  | ReadInConfig
  | ConfigFileUsed
  | Println

/-- The process state: the viper instance, the lines written to standard
output and standard error, and the library calls made so far. -/
structure Proc where
  viper : Viper
  stdout : List String
  stderr : List String
  trace : List Call

/-- The process at start-up, before `initConfig` runs. -/
def Proc.start : Proc :=
  { viper := Viper.New, stdout := [], stderr := [], trace := [] }

/-- How a function ends: it returns to its caller, or the process has been
terminated by `os.Exit` with the given code. -/
inductive Outcome where
  | returned (s : Proc)
  | exited (code : Nat) (s : Proc)

/-- The process state an outcome carries. -/
def Outcome.proc : Outcome → Proc
  | .returned s => s
  | .exited _ s => s

/-- The exit code, when the process was terminated. -/
def Outcome.exitCode : Outcome → Option Nat
  | .returned _ => none
  | .exited c _ => some c

/-- Sequencing: the rest of a function body runs only if the process is still alive. -/
def Outcome.andThen (o : Outcome) (f : Proc → Outcome) : Outcome :=
  match o with
  | .returned s => f s
  | .exited c s => .exited c s

/-- The reasons `viper.ReadInConfig` returns an error. -/
inductive ReadError where
  | ConfigFileNotFound (name : String) (locations : List String)
  | UnsupportedConfig (format : String)
  | ReadFile (path : String)
  | ConfigParse (path : String)

/-! ## Library calls -/

/-- The formats viper accepts, `viper.SupportedExts`. -/
def SupportedExts : List String :=
  ["json", "toml", "yaml", "yml", "properties", "props", "prop", "hcl", "tfvars",
   "dotenv", "env", "ini"]

/-- Scan of `filepath.Ext`: walk the path from its end, stop at a separator,
return the suffix that starts at the first dot met. -/
def extScan : List Char → List Char → List Char
  | [], _ => []
  | c :: rest, acc =>
    if c = '/' then [] else if c = '.' then '.' :: acc else extScan rest (c :: acc)

/-- The `filepath.Ext` function: the suffix beginning at the final dot of the
final path element, empty if there is none. -/
def filepathExt (path : String) : String :=
  String.mk (extScan path.data.reverse [])

/-- The `filepath.Dir` function on a cleaned absolute path: everything before
the final separator, the root for a file directly under it. -/
def filepathDir (path : String) : String :=
  match (path.data.reverse.dropWhile (fun c => c ≠ '/')).drop 1 with
  | [] => "/"
  | rest => String.mk rest.reverse

/-- The `filepath.Join` function on a cleaned directory and a file name. -/
def filepathJoin (dir name : String) : String :=
  if dir = "/" then dir ++ name else dir ++ "/" ++ name

/-- The text `fmt.Println` and `fmt.Fprintln` write for their operands: the
operands separated by single spaces (the trailing newline ends the line). -/
def fmtSprintln (operands : List String) : String :=
  " ".intercalate operands

/-- Call `viper.SetConfigFile`: a non-empty argument becomes the explicit file. -/
def Viper.SetConfigFile (v : Viper) (path : String) : Viper :=
  if path ≠ "" then { v with configFile := path } else v

/-- Call `viper.AddConfigPath`: a non-empty argument is normalised and appended
to the search directories unless already there. -/
def Viper.AddConfigPath (w : World) (v : Viper) (dir : String) : Viper :=
  if dir ≠ "" then
    let absin := w.absPathify dir
    if absin ∈ v.configPaths then v else { v with configPaths := v.configPaths ++ [absin] }
  else v

/-- Call `viper.SetConfigType`. -/
def Viper.SetConfigType (v : Viper) (format : String) : Viper :=
  if format ≠ "" then { v with configType := format } else v

/-- Call `viper.SetConfigName`: sets the name and forgets any explicit file. -/
def Viper.SetConfigName (v : Viper) (name : String) : Viper :=
  if name ≠ "" then { v with configName := name, configFile := "" } else v

/-- Call `viper.AutomaticEnv`. -/
def Viper.AutomaticEnv (v : Viper) : Viper :=
  { v with automaticEnvApplied := true }

/-- Call `viper.ConfigFileUsed`. -/
def Viper.ConfigFileUsed (v : Viper) : String :=
  v.configFile

/-- Viper's `searchInPath`: the first `<name>.<ext>` over the supported
extensions that exists in the directory; failing that, and only when a type is
configured, the bare `<name>`; the empty string when nothing is there. -/
def Viper.searchInPath (w : World) (v : Viper) (dir : String) : String :=
  match SupportedExts.find? (fun ext => w.fileExists (filepathJoin dir (v.configName ++ "." ++ ext))) with
  | some ext => filepathJoin dir (v.configName ++ "." ++ ext)
  | none =>
    if v.configType ≠ "" ∧ w.fileExists (filepathJoin dir v.configName) = true then
      filepathJoin dir v.configName
    else ""

/-- Viper's `findConfigFile`: the first hit over the search directories. -/
def Viper.findConfigFile (w : World) (v : Viper) : Option String :=
  (v.configPaths.map (v.searchInPath w)).find? (fun file => file ≠ "")

/-- Viper's `getConfigFile`: the explicit file if set, else the search result,
which is then remembered in `configFile`. -/
def Viper.getConfigFile (w : World) (v : Viper) : Viper × Option String :=
  if v.configFile = "" then
    match v.findConfigFile w with
    | some cf => ({ v with configFile := cf }, some cf)
    | none => (v, none)
  else (v, some v.configFile)

/-- Viper's `getConfigType`: the configured type if any, else the extension of
the config file without its dot. -/
def Viper.getConfigType (w : World) (v : Viper) : String :=
  if v.configType ≠ "" then v.configType
  else
    match (v.getConfigFile w).2 with
    | none => ""
    | some cf =>
      let ext := filepathExt cf
      if ext.data.length > 1 then String.mk (ext.data.drop 1) else ""

/-- Call `viper.ReadInConfig`: locate the file, check its format is supported,
read it, decode it, and only then install the decoded mapping.  Returns the
instance and the error, `none` for success. -/
def Viper.ReadInConfig (w : World) (v : Viper) : Viper × Option ReadError :=
  match v.getConfigFile w with
  | (v, none) => (v, some (.ConfigFileNotFound v.configName v.configPaths))
  | (v, some filename) =>
    if v.getConfigType w ∉ SupportedExts then
      (v, some (.UnsupportedConfig (v.getConfigType w)))
    else
      match w.readFile filename with
      | none => (v, some (.ReadFile filename))
      | some file =>
        match w.unmarshal (v.getConfigType w) file with
        | none => (v, some (.ConfigParse filename))
        | some config => ({ v with config := config }, none)

/-- Go's `strings.ToLower`: every character mapped to lower case, the ASCII
letters by the fixed offset, the others by the Unicode table. -/
def stringsToLower (w : World) (s : String) : String :=
  String.mk (s.data.map fun c => if c.toNat < 128 then c.toLower else w.unicodeLower c)

/-- Go's `strings.ToUpper`, likewise. -/
def stringsToUpper (w : World) (s : String) : String :=
  String.mk (s.data.map fun c => if c.toNat < 128 then c.toUpper else w.unicodeUpper c)

/-- Scan of `strings.Split` for a one-character separator: `cur` holds, in
reverse, the characters of the piece being read. -/
def splitScan (sep : Char) : List Char → List Char → List String
  | [], cur => [String.mk cur.reverse]
  | c :: rest, cur =>
    if c = sep then String.mk cur.reverse :: splitScan sep rest []
    else splitScan sep rest (c :: cur)

/-- Go's `strings.Split` for a one-character separator; the result is never empty. -/
def stringsSplit (s : String) (sep : Char) : List String :=
  splitScan sep s.data []

/-- Go's `strings.Join`. -/
def stringsJoin (elems : List String) (sep : String) : String :=
  sep.intercalate elems

/-- Go's `strconv.Atoi`: an optional sign followed by one or more decimal
digits, within the range of a 64-bit integer; `none` is its error. -/
def strconvAtoi (s : String) : Option Int :=
  let digitsValue (digits : List Char) : Option Nat :=
    if digits ≠ [] ∧ digits.all Char.isDigit = true then
      some (digits.foldl (fun n c => n * 10 + (c.toNat - 48)) 0)
    else none
  match s.data with
  | '-' :: digits =>
    (digitsValue digits).bind fun n => if n ≤ 2 ^ 63 then some (-(n : Int)) else none
  | '+' :: digits =>
    (digitsValue digits).bind fun n => if n < 2 ^ 63 then some (n : Int) else none
  | digits =>
    (digitsValue digits).bind fun n => if n < 2 ^ 63 then some (n : Int) else none

/-- What `viper.Get` comes to: a value, `nil`, or a Go run-time panic. -/
inductive Resolved where
  | value (v : Value)
  | absent
  | panic

/-- One indexing step of viper's path search. -/
inductive Step where
  | found (next : Value)
  | missing
  | panic

/-- The indexing at the head of viper's `searchMapWithPathPrefixes` and
`searchSliceWithPathPrefixes`: a map is indexed by the key; a slice by the key
read as a number, which is missing when it is no number or not below the
length, and which panics in `sourceSlice[index]` when it is negative; any
other value has nothing to index. -/
def indexSource (source : Value) (prefixKey : String) : Step :=
  match source with
  | .obj fields =>
    match fields.lookup prefixKey with
    | some next => .found next
    | none => .missing
  | .arr items =>
    match strconvAtoi prefixKey with
    | none => .missing
    | some index =>
      if (items.length : Int) ≤ index then .missing
      else if index < 0 then .panic
      else
        match items.get? index.toNat with
        | some next => .found next
        | none => .missing
  | _ => .missing

/-- The loop of viper's `searchIndexableWithPathPrefixes`, which tries the
prefixes `path[0:i]` of the path from the longest to the shortest and returns
the first result that is not `nil`.  Here `done` is the prefix `path[0:i]` and
`rest` is `path[i:]`: the longer prefixes are tried first (the first recursive
call), then the prefix `done` itself.  For the prefix that is the whole path
the indexed value is the result.  For a shorter one, the indexed value must
be a map or a slice, in which the search goes on with `rest`. -/
def searchPrefixes (w : World) : Value → List String → List String → Resolved
  | source, done, [] =>
    match indexSource source (stringsToLower w (stringsJoin done ".")) with
    | .found .null => .absent
    | .found next => .value next
    | .missing => .absent
    | .panic => .panic
  | source, done, seg :: rest =>
    match searchPrefixes w source (done ++ [seg]) rest with
    | .value v => .value v
    | .panic => .panic
    | .absent =>
      match indexSource source (stringsToLower w (stringsJoin done ".")) with
      | .found (.obj fields) => searchPrefixes w (.obj fields) [seg] rest
      | .found (.arr items) => searchPrefixes w (.arr items) [seg] rest
      | .found _ => .absent
      | .missing => .absent
      | .panic => .panic

/-- Viper's `searchIndexableWithPathPrefixes` on the config mapping: the
mapping itself for the empty path, else the search over the prefixes. -/
def searchConfig (w : World) (config : Settings) (path : List String) : Resolved :=
  match path with
  | [] => .value (.obj config)
  | seg :: rest => searchPrefixes w (.obj config) [seg] rest

/-- Viper's `mergeWithEnvPrefix` with no prefix set: the upper-cased key. -/
def Viper.mergeWithEnvPrefix (w : World) (key : String) : String :=
  stringsToUpper w key

/-- Viper's `getEnv` with `allowEmptyEnv` at its default `false`: the value of
the variable when it is set and not empty. -/
def Viper.getEnv (w : World) (name : String) : Option String :=
  match w.lookupEnv name with
  | some val => if val ≠ "" then some val else none
  | none => none

/-- Viper's `isPathShadowedInAutoEnv`: the first proper prefix `path[0:i]`, from
the shortest, whose variable `getEnv` finds; the empty string when none. -/
def Viper.isPathShadowedInAutoEnv (w : World) (path : List String) : String :=
  match ((List.range' 1 (path.length - 1)).map fun i => stringsJoin (path.take i) ".").find?
      (fun parentKey => (Viper.getEnv w (Viper.mergeWithEnvPrefix w parentKey)).isSome) with
  | some parentKey => parentKey
  | none => ""

/-- Call `viper.Get` for a key, on an instance with no aliases, overrides, bound
flags, bound variables, key/value store or defaults (the program registers
none).  The key is lower-cased and split at the dots.  With the overlay on,
the variable named by the upper-cased key wins when `getEnv` finds it, and a
nested key is `nil` when the variable of one of its parents is found.
Otherwise the config mapping is searched along the path. -/
def Viper.Get (w : World) (v : Viper) (key : String) : Resolved :=
  let lcaseKey := stringsToLower w key
  let path := stringsSplit lcaseKey '.'
  match (if v.automaticEnvApplied then Viper.getEnv w (Viper.mergeWithEnvPrefix w lcaseKey)
         else none) with
  | some val => .value (.str val)
  | none =>
    if v.automaticEnvApplied = true ∧ path.length > 1 ∧
        Viper.isPathShadowedInAutoEnv w path ≠ "" then .absent
    else searchConfig w v.config path

/-- Call `cobra.CheckErr`: nothing for a nil error; otherwise it writes
`Error: <msg>` to standard error and terminates the process with code 1. -/
def CheckErr (err : Option String) (s : Proc) : Outcome :=
  match err with
  | none => .returned { s with trace := s.trace ++ [.CheckErr] }
  | some msg =>
    .exited 1 { s with stderr := s.stderr ++ [fmtSprintln ["Error:", msg]],
                       trace := s.trace ++ [.CheckErr] }

/-- Write one line to standard output with `fmt.Println`. -/
def Proc.Println (s : Proc) (operands : List String) : Proc :=
  { s with stdout := s.stdout ++ [fmtSprintln operands], trace := s.trace ++ [.Println] }

/-- Apply a viper call to the global instance and record it. -/
def Proc.call (s : Proc) (c : Call) (f : Viper → Viper) : Proc :=
  { s with viper := f s.viper, trace := s.trace ++ [c] }

/-! ## The program: `cmd/root.go` -/

/-- The `--config` flag as `init` registers it on the root command's
persistent flags. -/
structure FlagSpec where
  name : String
  value : String
  usage : String
  persistent : Bool

/-- The registration in `init`: `StringVar(&cfgFile, "config", "", ...)`. -/
def init : FlagSpec :=
  { name := "config", value := "", usage := "config file (default is mcs.json)",
    persistent := true }

/-- The value of `cfgFile` after flag parsing: the argument of `--config`
when given, the registered default otherwise. -/
def cfgFile (arg : Option String) : String :=
  arg.getD init.value

/-- Lines 37 to 46 of `initConfig`: the choice of the configuration source.
A non-empty `cfgFile` is handed to `viper.SetConfigFile`; otherwise the result
of `os.Executable()` is checked with `cobra.CheckErr` and then registered as
search directory, with type `json` and name `mcs`. -/
def selectSource (w : World) (s : Proc) : Outcome :=
  if w.cfgFile ≠ "" then
    Outcome.returned (s.call (.SetConfigFile w.cfgFile) (fun v => v.SetConfigFile w.cfgFile))
  else
    let home := match w.executable with
      | .ok path => path
      | .error _ => ""
    let err := match w.executable with
      | .ok _ => none
      | .error e => some e
    (CheckErr err { s with trace := s.trace ++ [Call.osExecutable] }).andThen fun s =>
      let s := s.call (.AddConfigPath home) (fun v => v.AddConfigPath w home)
      let s := s.call (.SetConfigType "json") (fun v => v.SetConfigType "json")
      let s := s.call (.SetConfigName "mcs") (fun v => v.SetConfigName "mcs")
      Outcome.returned s

/-- The function `initConfig` of `cmd/root.go`: the source selection, then
`viper.AutomaticEnv()`, then `viper.ReadInConfig()`, whose success alone
prints the `Using config file` line. -/
def initConfig (w : World) (s : Proc) : Outcome :=
  (selectSource w s).andThen fun s =>
  let s := s.call .AutomaticEnv Viper.AutomaticEnv
  let r := s.viper.ReadInConfig w
  let s := { s with viper := r.1, trace := s.trace ++ [Call.ReadInConfig] }
  match r.2 with
  | none =>
    Outcome.returned
      ({ s with trace := s.trace ++ [Call.ConfigFileUsed] }.Println
        ["Using config file: ", s.viper.ConfigFileUsed])
  | some _ => Outcome.returned s

/-- The function `Execute` of `cmd/root.go`, given what `rootCmd.Execute()`
returned: `none` for a nil error, `some msg` for an error. -/
def Execute (rootCmdExecute : Option String) (s : Proc) : Outcome :=
  match rootCmdExecute with
  | some err => .exited 1 { s with stderr := s.stderr ++ [fmtSprintln [err]] }
  | none => .returned s

/-! ## Vocabulary for the statements -/

/-- The viper instance as the source selection configures it at start-up. -/
def configured (w : World) : Viper :=
  (selectSource w Proc.start).proc.viper

/-- The file `viper.ReadInConfig` settles on: the explicit file, or the first
hit of the search; `none` when the search finds nothing. -/
def selectedFile (w : World) : Option String :=
  ((configured w).getConfigFile w).2

/-- The format `viper.ReadInConfig` decodes the selected file with. -/
def selectedFormat (w : World) : String :=
  ((configured w).getConfigFile w).1.getConfigType w

/-- The selected file `f` is found, its format is supported, it is read and it
decodes to `m`. -/
def ReadSucceeds (w : World) (f : String) (m : Settings) : Prop :=
  selectedFile w = some f ∧ selectedFormat w ∈ SupportedExts ∧
    ∃ c, w.readFile f = some c ∧ w.unmarshal (selectedFormat w) c = some m

/-- No file is found, or the selected file cannot be read. -/
def FileAbsent (w : World) : Prop :=
  selectedFile w = none ∨ ∃ f, selectedFile w = some f ∧ w.readFile f = none

/-- The selected file is there and is read, but does not decode. -/
def FileMalformed (w : World) : Prop :=
  ∃ f c, selectedFile w = some f ∧ w.readFile f = some c ∧
    w.unmarshal (selectedFormat w) c = none

/-- The name of the environment variable viper reads for a key. -/
def envName (w : World) (key : String) : String :=
  Viper.mergeWithEnvPrefix w (stringsToLower w key)

/-- The path of a key: the lower-cased key split at its dots. -/
def keyPath (w : World) (key : String) : List String :=
  stringsSplit (stringsToLower w key) '.'

/-- The key is nested and the variable of one of its parents is set and not
empty. -/
def Shadowed (w : World) (key : String) : Prop :=
  (keyPath w key).length > 1 ∧ Viper.isPathShadowedInAutoEnv w (keyPath w key) ≠ ""

/-- The variable of the key is not set, or is set to the empty string. -/
def EnvUnset (w : World) (key : String) : Prop :=
  w.lookupEnv (envName w key) = none ∨ w.lookupEnv (envName w key) = some ""

/-- The format name an extension stands for: the extension without its dot. -/
def formatOfExt (ext : String) : String :=
  String.mk (ext.data.drop 1)

/-- What the file at `path` contributes when decoded in `format`: the decoded
mapping when the format is supported, the file is read and it decodes; nothing
otherwise. -/
def decodedAs (w : World) (format path : String) : Settings :=
  if format ∈ SupportedExts then ((w.readFile path).bind (w.unmarshal format)).getD [] else []

/-! ## Sample inputs used in the worked examples -/

/-- The `float64` 10: sign 0, exponent field 1026, fraction one quarter, that
is 1.25 times 2 to the 3. -/
def float64Ten : Float64 := ⟨0x4024000000000000, by decide⟩

/-- The `float64` 7: sign 0, exponent field 1025, fraction three quarters, that
is 1.75 times 2 to the 2. -/
def float64Seven : Float64 := ⟨0x401C000000000000, by decide⟩

/-- The text of the sample file: the JSON object with `speed` set to 10. -/
def sampleJson : String := "\x7b\"speed\": 10\x7d"

/-- The text of a file with a nested object: `motor` holds `speed` set to 7. -/
def motorJson : String := "\x7b\"motor\": \x7b\"speed\": 7\x7d\x7d"

/-- The text of a file that does not parse: an object that is never closed. -/
def brokenJson : String := "\x7b\"speed\": "

/-- A decoder for the worked examples, on the texts they use: as JSON, the
sample text decodes to the mapping with `speed` set to 10 and the nested text
to the mapping in which `motor` holds `speed` set to 7; every other input is a
parse error. -/
def sampleUnmarshal (format content : String) : Option Settings :=
  if format = "json" ∧ content = sampleJson then some [("speed", .num float64Ten)]
  else if format = "json" ∧ content = motorJson then
    some [("motor", .obj [("speed", .num float64Seven)])]
  else none

/-- A world with one file at `path` holding `content`, the flag set to `flag`,
the executable at `/opt/mcs/mcs-cli` and an empty environment. -/
def sampleWorld (flag path content : String) : World :=
  { cfgFile := flag
    executable := .ok "/opt/mcs/mcs-cli"
    absPathify := fun p => p
    fileExists := fun p => p = path
    readFile := fun p => if p = path then some content else none
    unmarshal := sampleUnmarshal
    lookupEnv := fun _ => none
    unicodeLower := fun c => c
    unicodeUpper := fun c => c }

/-- A world in which `os.Executable()` fails and no `--config` was given. -/
def lostExecutableWorld : World :=
  { sampleWorld "" "/opt/mcs/mcs.json" sampleJson with
    executable := .error "cannot find executable" }

/-- The sample file at `/etc/mcs/mcs.json`, given by the flag, with the single
environment variable `name` set to `val`. -/
def envWorld (content name val : String) : World :=
  { sampleWorld "/etc/mcs/mcs.json" "/etc/mcs/mcs.json" content with
    lookupEnv := fun n => if n = name then some val else none }

/-! ## Theorems -/

/-- The instance the source selection leaves behind on the explicit branch:
only the explicit file is set. -/
theorem selectSource_explicit (w : World) (s : Proc) (h : w.cfgFile ≠ "") :
    selectSource w s = .returned
      { s with viper := { s.viper with configFile := w.cfgFile },
               trace := s.trace ++ [Call.SetConfigFile w.cfgFile] } := by
  simp [selectSource, h, Proc.call, Viper.SetConfigFile]

/-- The source selection on the default branch when the executable is unknown:
`cobra.CheckErr` ends the process. -/
theorem selectSource_fatal (w : World) (s : Proc) (e : String) (h : w.cfgFile = "")
    (he : w.executable = .error e) :
    selectSource w s = .exited 1
      { s with stderr := s.stderr ++ ["Error: " ++ e],
               trace := s.trace ++ [Call.osExecutable, Call.CheckErr] } := by
  simp [selectSource, h, he, CheckErr, Outcome.andThen, fmtSprintln, String.intercalate,
    String.intercalate.go]

/-- The source selection on the default branch when the executable is known. -/
theorem selectSource_default (w : World) (s : Proc) (home : String) (h : w.cfgFile = "")
    (he : w.executable = .ok home) :
    selectSource w s = .returned
      { s with viper := ((s.viper.AddConfigPath w home).SetConfigType "json").SetConfigName "mcs",
               trace := s.trace ++ [Call.osExecutable, Call.CheckErr, Call.AddConfigPath home,
                 Call.SetConfigType "json", Call.SetConfigName "mcs"] } := by
  simp [selectSource, h, he, CheckErr, Outcome.andThen, Proc.call]

/-- Turning the environment overlay on does not change which file viper
settles on. -/
theorem getConfigFile_automaticEnv (w : World) (v : Viper) :
    v.AutomaticEnv.getConfigFile w = ((v.getConfigFile w).1.AutomaticEnv, (v.getConfigFile w).2) := by
  unfold Viper.getConfigFile Viper.findConfigFile Viper.searchInPath Viper.AutomaticEnv
  by_cases hc : v.configFile = ""
  · simp only [hc, if_true]
    split <;> simp_all
  · simp [hc]

/-- The environment switch does not change the format viper derives. -/
theorem getConfigType_automaticEnv (w : World) (v : Viper) :
    v.AutomaticEnv.getConfigType w = v.getConfigType w := by
  unfold Viper.getConfigType
  rw [getConfigFile_automaticEnv]
  simp [Viper.AutomaticEnv]

/-- What `initConfig` does once a source has been selected: it returns, with
the overlay on and standard error untouched, and either the selected file was
found, had a supported format, was read and decoded, in which case the decoded
mapping is installed and the line naming the file is printed; or one of these
steps failed, in which case the mapping and the output stay as they were. -/
theorem initConfig_after_select (w : World) (s s0 : Proc)
    (h : selectSource w s = .returned s0) :
    ∃ s1, initConfig w s = .returned s1 ∧ s1.stderr = s0.stderr ∧
      s1.viper.automaticEnvApplied = true ∧
      s1.viper.configType = s0.viper.configType ∧
      s1.viper.configPaths = s0.viper.configPaths ∧
      s1.viper.configName = s0.viper.configName ∧
      ((∃ f c, (s0.viper.getConfigFile w).2 = some f ∧
          (s0.viper.getConfigFile w).1.getConfigType w ∈ SupportedExts ∧
          w.readFile f = some c ∧
          w.unmarshal ((s0.viper.getConfigFile w).1.getConfigType w) c = some s1.viper.config ∧
          s1.viper.configFile = (s0.viper.getConfigFile w).1.configFile ∧
          s1.stdout = s0.stdout ++ ["Using config file:  " ++ (s0.viper.getConfigFile w).1.configFile] ∧
          s1.trace = s0.trace ++ [Call.AutomaticEnv, Call.ReadInConfig, Call.ConfigFileUsed,
            Call.Println]) ∨
       ((¬ ∃ f c m, (s0.viper.getConfigFile w).2 = some f ∧
          (s0.viper.getConfigFile w).1.getConfigType w ∈ SupportedExts ∧
          w.readFile f = some c ∧
          w.unmarshal ((s0.viper.getConfigFile w).1.getConfigType w) c = some m) ∧
          s1.viper.config = s0.viper.config ∧ s1.stdout = s0.stdout ∧
          s1.trace = s0.trace ++ [Call.AutomaticEnv, Call.ReadInConfig])) := by
  unfold initConfig
  rw [h]
  simp only [Outcome.andThen, Proc.call]
  unfold Viper.ReadInConfig
  rw [getConfigFile_automaticEnv]
  generalize hg : s0.viper.getConfigFile w = g
  obtain ⟨v1, sel⟩ := g
  have hfields : v1.configType = s0.viper.configType ∧ v1.configPaths = s0.viper.configPaths ∧
      v1.configName = s0.viper.configName ∧ v1.config = s0.viper.config := by
    unfold Viper.getConfigFile at hg
    split at hg
    · split at hg <;> (cases hg; simp)
    · cases hg; simp
  cases sel with
  | none => simp [Viper.AutomaticEnv, hfields]
  | some f =>
    simp only [getConfigType_automaticEnv]
    by_cases hsup : v1.getConfigType w ∈ SupportedExts
    · cases hr : w.readFile f with
      | none => simp [hsup, hr, Viper.AutomaticEnv, hfields]
      | some c =>
        cases hu : w.unmarshal (v1.getConfigType w) c with
        | none => simp [hsup, hr, hu, Viper.AutomaticEnv, hfields]
        | some m =>
          simp [hsup, hr, hu, Viper.AutomaticEnv, hfields, Proc.Println, fmtSprintln,
            String.intercalate, String.intercalate.go, Viper.ConfigFileUsed]
    · simp [hsup, Viper.AutomaticEnv, hfields]

/-- Unless the flag is empty and the executable unknown, `initConfig` returns. -/
theorem initConfig_returns (w : World)
    (hn : ¬ (w.cfgFile = "" ∧ ∃ e, w.executable = .error e)) :
    ∃ s, initConfig w Proc.start = .returned s := by
  by_cases h : w.cfgFile = ""
  · cases he : w.executable with
    | error e => exact absurd ⟨h, e, he⟩ hn
    | ok home =>
      obtain ⟨s1, h1, _⟩ := initConfig_after_select w Proc.start _
        (selectSource_default w Proc.start home h he)
      exact ⟨s1, h1⟩
  · obtain ⟨s1, h1, _⟩ := initConfig_after_select w Proc.start _
      (selectSource_explicit w Proc.start h)
    exact ⟨s1, h1⟩

/-- C7. `Execute` exits the process with code 1 exactly when `rootCmd.Execute()`
returned an error, and it is then that the error is written to standard error;
when no error was returned `Execute` returns to its caller with the process
state, standard error included, unchanged. -/
theorem Execute_exit_code (r : Option String) (s : Proc) :
    ((Execute r s).exitCode = some 1 ↔ r ≠ none) ∧
    ((Execute r s).exitCode = none ↔ r = none) ∧
    ((Execute r s).proc.stderr = s.stderr ↔ r = none) ∧
    Execute none s = .returned s ∧
    ∀ err, Execute (some err) s = .exited 1 { s with stderr := s.stderr ++ [err] } := by
  refine ⟨?_, ?_, ?_, rfl, ?_⟩
  · cases r <;> simp [Execute, Outcome.exitCode]
  · cases r <;> simp [Execute, Outcome.exitCode]
  · cases r <;> simp [Execute, Outcome.proc]
  · intro err
    simp [Execute, fmtSprintln, String.intercalate, String.intercalate.go]

/-- Worked example for C7: an error from the root command ends the process
with code 1 and the error on standard error. -/
theorem Execute_exit_code_witness :
    Execute (some "unknown command") Proc.start =
      .exited 1 { Proc.start with stderr := ["unknown command"] } :=
  (Execute_exit_code (some "unknown command") Proc.start).2.2.2.2 "unknown command"

/-- C3. `initConfig` terminates the process exactly when the `--config` value is
empty and `os.Executable()` failed; it then exits with code 1 through
`cobra.CheckErr`, having written the error to standard error, with the viper
instance untouched (overlay off) and no call made beyond `os.Executable` and
`cobra.CheckErr`.  In every other case it returns normally. -/
theorem initConfig_fatal_iff (w : World) :
    ((initConfig w Proc.start).exitCode = some 1 ↔
      (w.cfgFile = "" ∧ ∃ e, w.executable = .error e)) ∧
    ((∃ s, initConfig w Proc.start = .returned s) ↔
      ¬ (w.cfgFile = "" ∧ ∃ e, w.executable = .error e)) ∧
    (∀ e, w.cfgFile = "" → w.executable = .error e →
      initConfig w Proc.start = .exited 1
        { viper := Viper.New, stdout := [], stderr := ["Error: " ++ e],
          trace := [Call.osExecutable, Call.CheckErr] }) := by
  have hfatal : ∀ e, w.cfgFile = "" → w.executable = .error e →
      initConfig w Proc.start = .exited 1
        { viper := Viper.New, stdout := [], stderr := ["Error: " ++ e],
          trace := [Call.osExecutable, Call.CheckErr] } := by
    intro e h he
    unfold initConfig
    rw [selectSource_fatal w Proc.start e h he]
    simp [Outcome.andThen, Proc.start]
  have hret := initConfig_returns w
  refine ⟨⟨?_, ?_⟩, ⟨?_, hret⟩, hfatal⟩
  · intro hx
    by_contra hn
    obtain ⟨s, hs⟩ := hret hn
    rw [hs] at hx
    simp [Outcome.exitCode] at hx
  · rintro ⟨h, e, he⟩
    rw [hfatal e h he]
    rfl
  · rintro ⟨s, hs⟩ ⟨h, e, he⟩
    rw [hfatal e h he] at hs
    cases hs

/-- Worked example for C3: no flag and an unknown executable end the process
with code 1 before anything is configured. -/
theorem initConfig_fatal_iff_witness :
    initConfig lostExecutableWorld Proc.start = .exited 1
      { viper := Viper.New, stdout := [], stderr := ["Error: cannot find executable"],
        trace := [Call.osExecutable, Call.CheckErr] } :=
  (initConfig_fatal_iff lostExecutableWorld).2.2 "cannot find executable" rfl rfl

/-- C10. The source is chosen by the flag value alone.  The flag defaults to the
empty string.  For a non-empty value the selection makes the single call
`SetConfigFile` with that value: the explicit file is the only thing set (no
search directory, type or name), `os.Executable` is not called and its result
changes nothing.  For the empty value, with the executable known, no explicit
file is set and the search directory, the type `json` and the name `mcs` are
configured. -/
theorem source_selection (w : World) :
    init.value = "" ∧ cfgFile none = "" ∧
    (w.cfgFile ≠ "" →
      selectSource w Proc.start = .returned
        { viper := { Viper.New with configFile := w.cfgFile }, stdout := [], stderr := [],
          trace := [Call.SetConfigFile w.cfgFile] } ∧
      ∀ e, initConfig { w with executable := e } Proc.start = initConfig w Proc.start) ∧
    (w.cfgFile = "" → ∀ home, home ≠ "" → w.executable = .ok home →
      selectSource w Proc.start = .returned
        { viper := { Viper.New with configPaths := [w.absPathify home], configType := "json",
                                     configName := "mcs" },
          stdout := [], stderr := [],
          trace := [Call.osExecutable, Call.CheckErr, Call.AddConfigPath home,
            Call.SetConfigType "json", Call.SetConfigName "mcs"] }) := by
  refine ⟨rfl, rfl, ?_, ?_⟩
  · intro h
    refine ⟨?_, ?_⟩
    · rw [selectSource_explicit w Proc.start h]
      rfl
    · intro e
      have h2 : ({ w with executable := e } : World).cfgFile ≠ "" := h
      unfold initConfig
      rw [selectSource_explicit w Proc.start h, selectSource_explicit _ Proc.start h2]
      rfl
  · intro h home hh he
    rw [selectSource_default w Proc.start home h he]
    simp [Proc.start, Viper.New, Viper.AddConfigPath, Viper.SetConfigType, Viper.SetConfigName, hh]

/-- Worked example for C10: with `--config /etc/mcs/mcs.json` only the explicit
file is set; with no flag and the executable at `/opt/mcs/mcs-cli` the search
directory, the type `json` and the name `mcs` are set and no explicit file. -/
theorem source_selection_witness :
    selectSource (sampleWorld "/etc/mcs/mcs.json" "/etc/mcs/mcs.json" sampleJson) Proc.start =
      .returned
        { viper := { Viper.New with configFile := "/etc/mcs/mcs.json" }, stdout := [],
          stderr := [], trace := [Call.SetConfigFile "/etc/mcs/mcs.json"] } ∧
    selectSource (sampleWorld "" "/etc/mcs/mcs.json" sampleJson) Proc.start =
      .returned
        { viper := { Viper.New with configPaths := ["/opt/mcs/mcs-cli"], configType := "json",
                                     configName := "mcs" },
          stdout := [], stderr := [],
          trace := [Call.osExecutable, Call.CheckErr, Call.AddConfigPath "/opt/mcs/mcs-cli",
            Call.SetConfigType "json", Call.SetConfigName "mcs"] } :=
  ⟨((source_selection (sampleWorld "/etc/mcs/mcs.json" "/etc/mcs/mcs.json" sampleJson)).2.2.1
      (by decide)).1,
   (source_selection (sampleWorld "" "/etc/mcs/mcs.json" sampleJson)).2.2.2 rfl
      "/opt/mcs/mcs-cli" (by decide) rfl⟩

/-- When `getConfigFile` yields a file, that file is what `configFile` holds. -/
theorem getConfigFile_some (w : World) (v : Viper) (f : String)
    (h : (v.getConfigFile w).2 = some f) : (v.getConfigFile w).1.configFile = f := by
  unfold Viper.getConfigFile at h ⊢
  split
  · rename_i hc
    simp only [hc, if_true] at h
    split <;> rename_i hf <;> simp_all
  · rename_i hc
    simp only [hc, if_false] at h
    simp_all

/-- If `initConfig` returns, the source selection returned. -/
theorem selectSource_of_returned (w : World) (s s1 : Proc)
    (h : initConfig w s = .returned s1) : ∃ s0, selectSource w s = .returned s0 := by
  unfold initConfig at h
  cases hs : selectSource w s with
  | returned s0 => exact ⟨s0, rfl⟩
  | exited c s0 => rw [hs] at h; simp [Outcome.andThen] at h

/-- The source selection at start-up leaves mapping and output empty. -/
theorem selectSource_start_empty (w : World) (s0 : Proc)
    (h : selectSource w Proc.start = .returned s0) :
    s0.viper.config = [] ∧ s0.stdout = [] ∧ s0.stderr = [] := by
  by_cases hc : w.cfgFile = ""
  · cases he : w.executable with
    | error e => rw [selectSource_fatal w Proc.start e hc he] at h; cases h
    | ok home =>
      rw [selectSource_default w Proc.start home hc he] at h
      cases h
      refine ⟨?_, rfl, rfl⟩
      simp only [Viper.SetConfigName, Viper.SetConfigType, Viper.AddConfigPath]
      split <;> split <;> split <;> (try split) <;> rfl
  · rw [selectSource_explicit w Proc.start hc] at h
    cases h
    exact ⟨rfl, rfl, rfl⟩

/-- What a returning `initConfig` leaves behind at start-up: the overlay is
on, standard error is empty, and either the read succeeded for the selected
file, whose decoding is installed and whose path is printed, or it did not
and both mapping and standard output are empty. -/
theorem initConfig_returned (w : World) (s : Proc) (h : initConfig w Proc.start = .returned s) :
    s.stderr = [] ∧ s.viper.automaticEnvApplied = true ∧
    ((∃ f, ReadSucceeds w f s.viper.config ∧ s.viper.configFile = f ∧
        s.stdout = ["Using config file:  " ++ f]) ∨
     ((¬ ∃ f m, ReadSucceeds w f m) ∧ s.viper.config = [] ∧ s.stdout = [])) := by
  obtain ⟨s0, h0⟩ := selectSource_of_returned w _ _ h
  obtain ⟨hcfg, hout, herr⟩ := selectSource_start_empty w s0 h0
  obtain ⟨s1, h1, e1, a1, -, -, -, hcase⟩ := initConfig_after_select w Proc.start s0 h0
  rw [h1] at h
  cases h
  have hconf : configured w = s0.viper := by simp [configured, h0, Outcome.proc]
  refine ⟨by rw [e1, herr], a1, ?_⟩
  rcases hcase with ⟨f, c, hf, hsup, hr, hu, hcf, hso, -⟩ | ⟨hno, hc, hso, -⟩
  · left
    have hff := getConfigFile_some w s0.viper f hf
    refine ⟨f, ⟨by simp [selectedFile, hconf, hf], by simpa [selectedFormat, hconf] using hsup,
      c, hr, by simpa [selectedFormat, hconf] using hu⟩, by rw [hcf, hff], ?_⟩
    rw [hso, hout, hff]
    rfl
  · right
    refine ⟨?_, by rw [hc, hcfg], by rw [hso, hout]⟩
    rintro ⟨f, m, hf, hsup, c, hr, hu⟩
    apply hno
    refine ⟨f, c, m, by simpa [selectedFile, hconf] using hf,
      by simpa [selectedFormat, hconf] using hsup, hr, by simpa [selectedFormat, hconf] using hu⟩

/-- A successful read determines the file and the mapping. -/
theorem ReadSucceeds_unique (w : World) (f f2 : String) (m m2 : Settings)
    (h : ReadSucceeds w f m) (h2 : ReadSucceeds w f2 m2) : f = f2 ∧ m = m2 := by
  obtain ⟨hf, -, c, hr, hu⟩ := h
  obtain ⟨hf2, -, c2, hr2, hu2⟩ := h2
  rw [hf] at hf2
  cases hf2
  rw [hr] at hr2
  cases hr2
  rw [hu] at hu2
  cases hu2
  exact ⟨rfl, rfl⟩

/-- If the process ended in the source selection, no file is selected. -/
theorem selectedFile_of_exited (w : World) (c : Nat) (s : Proc)
    (h : selectSource w Proc.start = .exited c s) : selectedFile w = none := by
  by_cases hc : w.cfgFile = ""
  · cases he : w.executable with
    | error e =>
      unfold selectedFile configured
      rw [selectSource_fatal w Proc.start e hc he]
      rfl
    | ok home => rw [selectSource_default w Proc.start home hc he] at h; cases h
  · rw [selectSource_explicit w Proc.start hc] at h
    cases h

/-- If a file is selected, `initConfig` returns. -/
theorem initConfig_returns_of_selected (w : World) (f : String) (h : selectedFile w = some f) :
    ∃ s, initConfig w Proc.start = .returned s := by
  cases hs : selectSource w Proc.start with
  | returned s0 =>
    obtain ⟨s1, h1, -⟩ := initConfig_after_select w Proc.start s0 hs
    exact ⟨s1, h1⟩
  | exited c s0 =>
    rw [selectedFile_of_exited w c s0 hs] at h
    cases h

/-- The scan of `strings.Split` never yields the empty list. -/
theorem splitScan_ne_nil (sep : Char) (l cur : List Char) : splitScan sep l cur ≠ [] := by
  induction l generalizing cur with
  | nil => simp [splitScan]
  | cons c rest ih =>
    unfold splitScan
    split
    · simp
    · exact ih _

/-- Nothing is found in the empty mapping. -/
theorem searchPrefixes_empty (w : World) (done rest : List String) :
    searchPrefixes w (.obj []) done rest = .absent := by
  induction rest generalizing done with
  | nil => simp [searchPrefixes, indexSource]
  | cons seg rest ih => simp [searchPrefixes, indexSource, ih]

/-- The path search of a key in the empty mapping finds nothing. -/
theorem searchConfig_empty (w : World) (key : String) :
    searchConfig w [] (keyPath w key) = .absent := by
  unfold searchConfig keyPath stringsSplit
  split
  · rename_i h
    exact absurd h (splitScan_ne_nil _ _ _)
  · exact searchPrefixes_empty w _ _

/-- Viper finds the variable exactly when it is set and not empty. -/
theorem getEnv_eq_some (w : World) (name val : String) (h : w.lookupEnv name = some val)
    (hne : val ≠ "") : Viper.getEnv w name = some val := by
  simp [Viper.getEnv, h, hne]

/-- Viper finds no variable when it is not set or set to the empty string. -/
theorem getEnv_eq_none (w : World) (name : String)
    (h : w.lookupEnv name = none ∨ w.lookupEnv name = some "") :
    Viper.getEnv w name = none := by
  rcases h with h | h <;> simp [Viper.getEnv, h]

/-- With the overlay on, a variable viper finds is the value of the key. -/
theorem Get_of_env (w : World) (v : Viper) (key val : String)
    (ha : v.automaticEnvApplied = true) (he : Viper.getEnv w (envName w key) = some val) :
    v.Get w key = .value (.str val) := by
  unfold envName at he
  simp [Viper.Get, ha, he]

/-- With the overlay on and no variable found for the key, a key whose parent
has a variable is absent. -/
theorem Get_of_shadowed (w : World) (v : Viper) (key : String)
    (ha : v.automaticEnvApplied = true) (he : Viper.getEnv w (envName w key) = none)
    (hs : Shadowed w key) : v.Get w key = .absent := by
  unfold envName at he
  unfold Shadowed keyPath at hs
  simp only [Viper.Get, ha, he, if_true]
  rw [if_pos ⟨trivial, hs.1, hs.2⟩]

/-- With the overlay on, no variable found for the key and none for its
parents, the key resolves to what the path search finds in the mapping. -/
theorem Get_of_file (w : World) (v : Viper) (key : String)
    (he : Viper.getEnv w (envName w key) = none) (hs : ¬ Shadowed w key) :
    v.Get w key = searchConfig w v.config (keyPath w key) := by
  unfold envName at he
  unfold Shadowed keyPath at hs
  unfold keyPath
  simp only [Viper.Get, he]
  have hnone : (if v.automaticEnvApplied = true then (none : Option String) else none) = none := by
    split <;> rfl
  rw [hnone]
  simp only
  rw [if_neg]
  rintro ⟨-, h1, h2⟩
  exact hs ⟨h1, h2⟩

/-- C1, as stated, fails.  First, a variable that exists but is empty does not
win: with the file setting `speed` to 10 and `SPEED` set to the empty string,
the resolved value is the file's 10.  Second, a nested key without a variable
of its own does not always get the file's value: with the file holding `speed`
set to 7 under `motor` and only `MOTOR` set, `MOTOR.SPEED` does not exist, the
file contains `motor.speed`, and yet the key is absent. -/
theorem env_precedence_counterexample :
    (envWorld sampleJson "SPEED" "").lookupEnv (envName (envWorld sampleJson "SPEED" "") "speed")
      = some "" ∧
    (initConfig (envWorld sampleJson "SPEED" "") Proc.start).proc.viper.Get
      (envWorld sampleJson "SPEED" "") "speed" = .value (.num float64Ten) ∧
    (envWorld motorJson "MOTOR" "on").lookupEnv
      (envName (envWorld motorJson "MOTOR" "on") "motor.speed") = none ∧
    searchConfig (envWorld motorJson "MOTOR" "on")
      (initConfig (envWorld motorJson "MOTOR" "on") Proc.start).proc.viper.config
      (keyPath (envWorld motorJson "MOTOR" "on") "motor.speed") = .value (.num float64Seven) ∧
    (initConfig (envWorld motorJson "MOTOR" "on") Proc.start).proc.viper.Get
      (envWorld motorJson "MOTOR" "on") "motor.speed" = .absent :=
  ⟨rfl, rfl, rfl, rfl, rfl⟩

/-- C1, amended. Whenever `initConfig` returns, the environment overlay is on,
whichever branch selected the source and whatever the read returned.  So for
every key, taken in lower case and split at its dots: if the variable named by
the upper-cased key is set and not empty, its value is the resolved value;
otherwise, if the key is nested and the variable of one of its parents is set
and not empty, the key is absent; otherwise the resolved value is what the
file's mapping holds along the key's path, when the file was read, and the
key is absent when the file was not read. -/
theorem env_precedence (w : World) (s : Proc) (h : initConfig w Proc.start = .returned s)
    (key : String) :
    s.viper.automaticEnvApplied = true ∧
    (∀ val, w.lookupEnv (envName w key) = some val → val ≠ "" →
      s.viper.Get w key = .value (.str val)) ∧
    (EnvUnset w key →
      (Shadowed w key → s.viper.Get w key = .absent) ∧
      (¬ Shadowed w key →
        (∀ f m, ReadSucceeds w f m → s.viper.Get w key = searchConfig w m (keyPath w key)) ∧
        ((¬ ∃ f m, ReadSucceeds w f m) → s.viper.Get w key = .absent))) := by
  obtain ⟨-, ha, hcase⟩ := initConfig_returned w s h
  refine ⟨ha, ?_, ?_⟩
  · intro val hv hne
    exact Get_of_env w s.viper key val ha (getEnv_eq_some w _ val hv hne)
  · intro hn
    have he := getEnv_eq_none w _ hn
    refine ⟨fun hs => Get_of_shadowed w s.viper key ha he hs, fun hs => ?_⟩
    have hget := Get_of_file w s.viper key he hs
    refine ⟨?_, ?_⟩
    · intro f m hfm
      rcases hcase with ⟨f2, h2, -, -⟩ | ⟨hno, -, -⟩
      · rw [hget, (ReadSucceeds_unique w f f2 m _ hfm h2).2]
      · exact absurd ⟨f, m, hfm⟩ hno
    · intro hno
      rcases hcase with ⟨f2, h2, -, -⟩ | ⟨-, hc, -⟩
      · exact absurd ⟨f2, _, h2⟩ hno
      · rw [hget, hc]
        exact searchConfig_empty w key

/-- Worked example for C1 as amended: the file sets `speed` to 10, the
environment sets `SPEED` to 20, and the resolved value is the environment's. -/
theorem env_precedence_witness :
    (initConfig (envWorld sampleJson "SPEED" "20") Proc.start).proc.viper.Get
      (envWorld sampleJson "SPEED" "20") "speed" = .value (.str "20") :=
  (env_precedence (envWorld sampleJson "SPEED" "20")
    (initConfig (envWorld sampleJson "SPEED" "20") Proc.start).proc rfl "speed").2.1
    "20" rfl (by decide)

/-- C2. When a source was selected (the flag is set, or the executable is known)
and the selected file is absent or does not decode, `initConfig` returns
normally, the mapping holds nothing from a file, and every key resolves to the
value of its environment variable when viper finds one and is absent
otherwise. -/
theorem degrade_to_empty (w : World)
    (hsel : w.cfgFile ≠ "" ∨ ∃ home, w.executable = .ok home)
    (hbad : FileAbsent w ∨ FileMalformed w) :
    ∃ s, initConfig w Proc.start = .returned s ∧ s.viper.config = [] ∧
      ∀ key, s.viper.Get w key =
        match Viper.getEnv w (envName w key) with
        | some val => .value (.str val)
        | none => .absent := by
  have hret : ∃ s, initConfig w Proc.start = .returned s := by
    apply initConfig_returns
    rintro ⟨hc, e, he⟩
    rcases hsel with h | ⟨home, hh⟩
    · exact h hc
    · rw [he] at hh
      cases hh
  obtain ⟨s, hs⟩ := hret
  obtain ⟨-, ha, hcase⟩ := initConfig_returned w s hs
  have hno : ¬ ∃ f m, ReadSucceeds w f m := by
    rintro ⟨f, m, hf, -, c, hr, hu⟩
    rcases hbad with (hnone | ⟨f2, hf2, hr2⟩) | ⟨f2, c2, hf2, hr2, hu2⟩
    · rw [hnone] at hf
      cases hf
    · rw [hf] at hf2
      cases hf2
      rw [hr] at hr2
      cases hr2
    · rw [hf] at hf2
      cases hf2
      rw [hr] at hr2
      cases hr2
      rw [hu] at hu2
      cases hu2
  have hc : s.viper.config = [] := by
    rcases hcase with ⟨f2, h2, -, -⟩ | ⟨-, hc, -⟩
    · exact absurd ⟨f2, _, h2⟩ hno
    · exact hc
  refine ⟨s, hs, hc, ?_⟩
  intro key
  cases hv : Viper.getEnv w (envName w key) with
  | some val => exact Get_of_env w s.viper key val ha hv
  | none =>
    by_cases hsh : Shadowed w key
    · exact Get_of_shadowed w s.viper key ha hv hsh
    · rw [Get_of_file w s.viper key hv hsh, hc]
      exact searchConfig_empty w key

/-- Worked example for C2: `--config /nonexistent.json` returns normally with an
empty mapping. -/
theorem degrade_to_empty_witness :
    ∃ s, initConfig (sampleWorld "/nonexistent.json" "/opt/mcs/mcs.json" sampleJson) Proc.start
        = .returned s ∧ s.viper.config = [] ∧
      ∀ key, s.viper.Get (sampleWorld "/nonexistent.json" "/opt/mcs/mcs.json" sampleJson) key =
        match Viper.getEnv (sampleWorld "/nonexistent.json" "/opt/mcs/mcs.json" sampleJson)
            (envName (sampleWorld "/nonexistent.json" "/opt/mcs/mcs.json" sampleJson) key) with
        | some val => .value (.str val)
        | none => .absent :=
  degrade_to_empty (sampleWorld "/nonexistent.json" "/opt/mcs/mcs.json" sampleJson)
    (Or.inl (by decide)) (Or.inl (Or.inr ⟨"/nonexistent.json", rfl, rfl⟩))

/-- C8. When `initConfig` returns, standard output is either empty or the single
line `Using config file:  <path>` with the path viper reports as used.  The
line is there exactly when the selected file was found, read and decoded; it
then names that file.  Nothing is printed when the file is absent, and for an
explicit path that was read successfully the path named is the flag value. -/
theorem using_config_file_line (w : World) (s : Proc)
    (h : initConfig w Proc.start = .returned s) :
    (s.stdout = [] ∨ s.stdout = ["Using config file:  " ++ s.viper.ConfigFileUsed]) ∧
    (s.stdout ≠ [] ↔ ∃ f m, ReadSucceeds w f m) ∧
    (∀ f m, ReadSucceeds w f m →
      s.viper.ConfigFileUsed = f ∧ s.stdout = ["Using config file:  " ++ f]) ∧
    (FileAbsent w → s.stdout = []) ∧
    (w.cfgFile ≠ "" → s.stdout ≠ [] → s.stdout = ["Using config file:  " ++ w.cfgFile]) := by
  obtain ⟨-, -, hcase⟩ := initConfig_returned w s h
  have hexp : w.cfgFile ≠ "" → selectedFile w = some w.cfgFile := by
    intro hc
    unfold selectedFile configured
    rw [selectSource_explicit w Proc.start hc]
    simp [Outcome.proc, Viper.getConfigFile, hc]
  rcases hcase with ⟨f, hf, hcf, hso⟩ | ⟨hno, -, hso⟩
  · refine ⟨Or.inr (by rw [hso, Viper.ConfigFileUsed, hcf]), ?_, ?_, ?_, ?_⟩
    · simp only [hso]
      exact ⟨fun _ => ⟨f, _, hf⟩, fun _ => by simp⟩
    · intro f2 m2 h2
      obtain ⟨e1, -⟩ := ReadSucceeds_unique w f f2 _ m2 hf h2
      subst e1
      exact ⟨hcf, hso⟩
    · obtain ⟨hsel, -, c, hr, -⟩ := hf
      rintro (hnone | ⟨f2, hf2, hr2⟩)
      · rw [hnone] at hsel
        cases hsel
      · rw [hsel] at hf2
        cases hf2
        rw [hr] at hr2
        cases hr2
    · intro hc _
      have := hexp hc
      rw [hf.1] at this
      cases this
      exact hso
  · refine ⟨Or.inl hso, ?_, ?_, fun _ => hso, fun _ hne => absurd hso hne⟩
    · simp only [hso]
      exact ⟨fun hne => absurd rfl hne, fun hex => absurd hex hno⟩
    · intro f2 m2 h2
      exact absurd ⟨f2, m2, h2⟩ hno

/-- Worked example for C8: `--config /etc/mcs/mcs.json` with the sample file
there prints the line naming exactly that path. -/
theorem using_config_file_line_witness :
    (initConfig (sampleWorld "/etc/mcs/mcs.json" "/etc/mcs/mcs.json" sampleJson)
      Proc.start).proc.stdout = ["Using config file:  /etc/mcs/mcs.json"] :=
  (using_config_file_line (sampleWorld "/etc/mcs/mcs.json" "/etc/mcs/mcs.json" sampleJson)
    (initConfig (sampleWorld "/etc/mcs/mcs.json" "/etc/mcs/mcs.json" sampleJson) Proc.start).proc
    rfl).2.2.2.2 (by decide) (by decide)

/-- C9, as stated, fails: with `--config /etc/mcs/mcs.json` naming a file that
is there and does not parse, `initConfig` writes nothing, neither to standard
output nor to standard error. -/
theorem malformed_reported_counterexample :
    FileMalformed (sampleWorld "/etc/mcs/mcs.json" "/etc/mcs/mcs.json" brokenJson) ∧
    (initConfig (sampleWorld "/etc/mcs/mcs.json" "/etc/mcs/mcs.json" brokenJson)
      Proc.start).proc.stdout = [] ∧
    (initConfig (sampleWorld "/etc/mcs/mcs.json" "/etc/mcs/mcs.json" brokenJson)
      Proc.start).proc.stderr = [] :=
  ⟨⟨"/etc/mcs/mcs.json", brokenJson, rfl, rfl, rfl⟩, rfl, rfl⟩

/-- C9, amended. When the selected file is there and does not parse,
`initConfig` returns without writing anything to standard output or standard
error, and the mapping holds nothing from the file. -/
theorem malformed_silent (w : World) (h : FileMalformed w) :
    ∃ s, initConfig w Proc.start = .returned s ∧ s.stdout = [] ∧ s.stderr = [] ∧
      s.viper.config = [] := by
  obtain ⟨f, c, hf, hr, hu⟩ := h
  obtain ⟨s, hs⟩ := initConfig_returns_of_selected w f hf
  obtain ⟨herr, -, hcase⟩ := initConfig_returned w s hs
  rcases hcase with ⟨f2, ⟨hf2, -, c2, hr2, hu2⟩, -, -⟩ | ⟨-, hc, hso⟩
  · rw [hf] at hf2
    cases hf2
    rw [hr] at hr2
    cases hr2
    rw [hu] at hu2
    cases hu2
  · exact ⟨s, hs, hso, herr, hc⟩

/-- Worked example for C9 as amended: the broken file at the explicit path. -/
theorem malformed_silent_witness :
    ∃ s, initConfig (sampleWorld "/etc/mcs/mcs.json" "/etc/mcs/mcs.json" brokenJson) Proc.start
        = .returned s ∧ s.stdout = [] ∧ s.stderr = [] ∧ s.viper.config = [] :=
  malformed_silent (sampleWorld "/etc/mcs/mcs.json" "/etc/mcs/mcs.json" brokenJson)
    ⟨"/etc/mcs/mcs.json", brokenJson, rfl, rfl, rfl⟩

/-- The scan of `filepath.Ext` yields nothing or a text that starts with a dot. -/
theorem extScan_shape (l acc : List Char) :
    extScan l acc = [] ∨ ∃ t, extScan l acc = '.' :: t := by
  induction l generalizing acc with
  | nil => exact Or.inl rfl
  | cons c rest ih =>
    unfold extScan
    by_cases h1 : c = '/'
    · simp [h1]
    · by_cases h2 : c = '.'
      · simp [h2]
      · simpa [h1, h2] using ih (c :: acc)

/-- An extension stands for `json` exactly when it is `.json`. -/
theorem formatOfExt_json (path : String) :
    formatOfExt (filepathExt path) = "json" ↔ filepathExt path = ".json" := by
  unfold formatOfExt filepathExt
  rcases extScan_shape path.data.reverse [] with h | ⟨t, h⟩
  · rw [h]
    decide
  · rw [h]
    constructor
    · intro ht
      have : t = "json".data := by
        have := congrArg String.data ht
        simpa using this
      rw [this]
    · intro ht
      have : t = "json".data := by
        have := congrArg String.data ht
        simpa using this
      rw [this]
      rfl

/-- On the explicit branch the configured instance has the explicit file and
nothing else. -/
theorem configured_explicit (w : World) (h : w.cfgFile ≠ "") :
    configured w = { Viper.New with configFile := w.cfgFile } := by
  unfold configured
  rw [selectSource_explicit w Proc.start h]
  rfl

/-- On the explicit branch the selected file is the flag value. -/
theorem selectedFile_explicit (w : World) (h : w.cfgFile ≠ "") :
    selectedFile w = some w.cfgFile := by
  unfold selectedFile
  rw [configured_explicit w h]
  simp [Viper.getConfigFile, h]

/-- On the explicit branch the format is the one the extension stands for. -/
theorem selectedFormat_explicit (w : World) (h : w.cfgFile ≠ "") :
    selectedFormat w = formatOfExt (filepathExt w.cfgFile) := by
  unfold selectedFormat
  rw [configured_explicit w h]
  simp only [Viper.getConfigFile, Viper.getConfigType, Viper.New, h, if_false, formatOfExt]
  simp only [ne_eq, not_true_eq_false, if_false]
  split
  · rfl
  · rename_i hlen
    have : (filepathExt w.cfgFile).data.drop 1 = [] := by
      apply List.drop_eq_nil_of_le
      omega
    rw [this]

/-- On the explicit branch the mapping after `initConfig` is the decoding of
the explicit file in the format its extension stands for. -/
theorem explicit_config (w : World) (h : w.cfgFile ≠ "") :
    ∃ s, initConfig w Proc.start = .returned s ∧
      s.viper.config = decodedAs w (formatOfExt (filepathExt w.cfgFile)) w.cfgFile ∧
      (s.viper.config ≠ [] → s.stdout = ["Using config file:  " ++ w.cfgFile]) := by
  obtain ⟨s, hs⟩ := initConfig_returns w (fun hx => h hx.1)
  obtain ⟨-, -, hcase⟩ := initConfig_returned w s hs
  have hfile := selectedFile_explicit w h
  have hfmt := selectedFormat_explicit w h
  refine ⟨s, hs, ?_⟩
  rcases hcase with ⟨f, ⟨hf, hsup, c, hr, hu⟩, -, hso⟩ | ⟨hno, hc, -⟩
  · rw [hfile] at hf
    cases hf
    rw [hfmt] at hsup hu
    refine ⟨?_, fun _ => hso⟩
    simp [decodedAs, hsup, hr, hu]
  · refine ⟨?_, fun hne => absurd hc hne⟩
    rw [hc]
    unfold decodedAs
    by_cases hsup : formatOfExt (filepathExt w.cfgFile) ∈ SupportedExts
    · cases hr : w.readFile w.cfgFile with
      | none => simp [hsup]
      | some c =>
        cases hu : w.unmarshal (formatOfExt (filepathExt w.cfgFile)) c with
        | none => simp [hsup, hu]
        | some m =>
          exact absurd ⟨w.cfgFile, m, hfile, by rw [hfmt]; exact hsup, c, hr,
            by rw [hfmt]; exact hu⟩ hno
    · simp [hsup]

/-- C5, as stated, fails: the same text at `/etc/mcs/settings.json` and at
`/etc/mcs/settings.toml` resolves differently.  Under the first name it is
decoded as JSON and `speed` is 10; under the second the format is `toml`, the
text does not decode, and `speed` is absent. -/
theorem explicit_format_counterexample :
    (sampleWorld "/etc/mcs/settings.json" "/etc/mcs/settings.json" sampleJson).readFile
        "/etc/mcs/settings.json" =
      (sampleWorld "/etc/mcs/settings.toml" "/etc/mcs/settings.toml" sampleJson).readFile
        "/etc/mcs/settings.toml" ∧
    selectedFormat (sampleWorld "/etc/mcs/settings.json" "/etc/mcs/settings.json" sampleJson)
      = "json" ∧
    selectedFormat (sampleWorld "/etc/mcs/settings.toml" "/etc/mcs/settings.toml" sampleJson)
      = "toml" ∧
    (initConfig (sampleWorld "/etc/mcs/settings.json" "/etc/mcs/settings.json" sampleJson)
      Proc.start).proc.viper.config = [("speed", .num float64Ten)] ∧
    (initConfig (sampleWorld "/etc/mcs/settings.toml" "/etc/mcs/settings.toml" sampleJson)
      Proc.start).proc.viper.config = [] :=
  ⟨rfl, rfl, rfl, rfl, rfl⟩

/-- C5, amended. For every non-empty `--config` path no format is configured:
the file is decoded in the format its extension stands for, which is JSON
exactly when the extension is `.json`; the mapping is that decoding, and two
explicit paths with the same extension and the same content resolve to the
same mapping. -/
theorem explicit_format_from_extension (w : World) (h : w.cfgFile ≠ "") :
    (configured w).configType = "" ∧
    selectedFormat w = formatOfExt (filepathExt w.cfgFile) ∧
    (selectedFormat w = "json" ↔ filepathExt w.cfgFile = ".json") ∧
    (initConfig w Proc.start).proc.viper.config =
      decodedAs w (formatOfExt (filepathExt w.cfgFile)) w.cfgFile ∧
    ∀ w2 : World, w2.cfgFile ≠ "" → filepathExt w2.cfgFile = filepathExt w.cfgFile →
      w2.readFile w2.cfgFile = w.readFile w.cfgFile → w2.unmarshal = w.unmarshal →
      (initConfig w2 Proc.start).proc.viper.config = (initConfig w Proc.start).proc.viper.config := by
  have hcfg : ∀ u : World, u.cfgFile ≠ "" → (initConfig u Proc.start).proc.viper.config =
      decodedAs u (formatOfExt (filepathExt u.cfgFile)) u.cfgFile := by
    intro u hu
    obtain ⟨s, hs, hc, -⟩ := explicit_config u hu
    rw [hs]
    exact hc
  refine ⟨?_, selectedFormat_explicit w h, ?_, hcfg w h, ?_⟩
  · rw [configured_explicit w h]
    rfl
  · rw [selectedFormat_explicit w h]
    exact formatOfExt_json w.cfgFile
  · intro w2 h2 hext hread hdec
    rw [hcfg w h, hcfg w2 h2]
    simp [decodedAs, hext, hread, hdec]

/-- Worked example for C5 as amended: the sample file under a `.json` name is
decoded as JSON. -/
theorem explicit_format_from_extension_witness :
    selectedFormat (sampleWorld "/etc/mcs/settings.json" "/etc/mcs/settings.json" sampleJson)
      = "json" :=
  (explicit_format_from_extension
    (sampleWorld "/etc/mcs/settings.json" "/etc/mcs/settings.json" sampleJson)
    (by decide)).2.2.1.mpr (by decide)

/-- C6, as stated, fails: the sample file, a valid JSON object, given as the
explicit path `/etc/mcs/settings` with an empty environment resolves to the
empty mapping, because the path has no extension and so names no format. -/
theorem file_pass_through_counterexample :
    sampleUnmarshal "json" sampleJson = some [("speed", .num float64Ten)] ∧
    (sampleWorld "/etc/mcs/settings" "/etc/mcs/settings" sampleJson).readFile
      "/etc/mcs/settings" = some sampleJson ∧
    selectedFormat (sampleWorld "/etc/mcs/settings" "/etc/mcs/settings" sampleJson) = "" ∧
    (initConfig (sampleWorld "/etc/mcs/settings" "/etc/mcs/settings" sampleJson)
      Proc.start).proc.viper.config = [] ∧
    (initConfig (sampleWorld "/etc/mcs/settings" "/etc/mcs/settings" sampleJson)
      Proc.start).proc.viper.Get
        (sampleWorld "/etc/mcs/settings" "/etc/mcs/settings" sampleJson) "speed" = .absent :=
  ⟨rfl, rfl, rfl, rfl, rfl⟩

/-- C6, amended. For every file given as an explicit path with the extension
`.json` that viper decodes as JSON to the mapping `m`, the mapping after
`initConfig` is exactly `m`: nothing is added to it and nothing dropped from
it.  And every key whose variable, and whose parents' variables, are not set
or are empty resolves to what `m` holds along the key's path, in whatever
letter case the key is asked for. -/
theorem file_pass_through (w : World) (c : String) (m : Settings)
    (hext : filepathExt w.cfgFile = ".json")
    (hr : w.readFile w.cfgFile = some c) (hu : w.unmarshal "json" c = some m) :
    ∃ s, initConfig w Proc.start = .returned s ∧ s.viper.config = m ∧
      ∀ key, EnvUnset w key → ¬ Shadowed w key →
        s.viper.Get w key = searchConfig w m (keyPath w key) := by
  have h : w.cfgFile ≠ "" := by
    intro h0
    rw [h0] at hext
    revert hext
    decide
  obtain ⟨s, hs, hc, -⟩ := explicit_config w h
  have hm : s.viper.config = m := by
    rw [hc, (formatOfExt_json w.cfgFile).mpr hext]
    simp [decodedAs, SupportedExts, hr, hu]
  refine ⟨s, hs, hm, ?_⟩
  intro key hk hsh
  rw [Get_of_file w s.viper key (getEnv_eq_none w _ hk) hsh, hm]

/-- Worked example for C6 as amended: the file holding `speed` set to 10 at
`/etc/mcs/mcs.json`, with no environment variable, resolves to `speed` set to
10, whether the key is asked for as `speed` or as `SPEED`. -/
theorem file_pass_through_witness :
    (∃ s, initConfig (sampleWorld "/etc/mcs/mcs.json" "/etc/mcs/mcs.json" sampleJson) Proc.start
        = .returned s ∧ s.viper.config = [("speed", .num float64Ten)] ∧
      ∀ key, EnvUnset (sampleWorld "/etc/mcs/mcs.json" "/etc/mcs/mcs.json" sampleJson) key →
        ¬ Shadowed (sampleWorld "/etc/mcs/mcs.json" "/etc/mcs/mcs.json" sampleJson) key →
        s.viper.Get (sampleWorld "/etc/mcs/mcs.json" "/etc/mcs/mcs.json" sampleJson) key =
          searchConfig (sampleWorld "/etc/mcs/mcs.json" "/etc/mcs/mcs.json" sampleJson)
            [("speed", .num float64Ten)]
            (keyPath (sampleWorld "/etc/mcs/mcs.json" "/etc/mcs/mcs.json" sampleJson) key)) ∧
    searchConfig (sampleWorld "/etc/mcs/mcs.json" "/etc/mcs/mcs.json" sampleJson)
      [("speed", .num float64Ten)]
      (keyPath (sampleWorld "/etc/mcs/mcs.json" "/etc/mcs/mcs.json" sampleJson) "speed")
        = .value (.num float64Ten) ∧
    searchConfig (sampleWorld "/etc/mcs/mcs.json" "/etc/mcs/mcs.json" sampleJson)
      [("speed", .num float64Ten)]
      (keyPath (sampleWorld "/etc/mcs/mcs.json" "/etc/mcs/mcs.json" sampleJson) "SPEED")
        = .value (.num float64Ten) :=
  ⟨file_pass_through (sampleWorld "/etc/mcs/mcs.json" "/etc/mcs/mcs.json" sampleJson) sampleJson
    [("speed", .num float64Ten)] (by decide) rfl rfl, rfl, rfl⟩

/-- C4 at a concrete input: no flag, the executable at `/opt/mcs/mcs-cli`, and
the file `mcs.json` in the executable's directory `/opt/mcs`.  The search
directory `initConfig` registers is the executable's own path, not its
directory; the file next to the executable is not found and nothing is loaded.
A file is found only at `/opt/mcs/mcs-cli/mcs.json`, below the executable. -/
theorem default_location_failing_input :
    filepathDir "/opt/mcs/mcs-cli" = "/opt/mcs" ∧
    (sampleWorld "" "/opt/mcs/mcs.json" sampleJson).readFile
      (filepathJoin (filepathDir "/opt/mcs/mcs-cli") "mcs.json") = some sampleJson ∧
    (configured (sampleWorld "" "/opt/mcs/mcs.json" sampleJson)).configPaths
      = ["/opt/mcs/mcs-cli"] ∧
    selectedFile (sampleWorld "" "/opt/mcs/mcs.json" sampleJson) = none ∧
    (initConfig (sampleWorld "" "/opt/mcs/mcs.json" sampleJson) Proc.start).proc.viper.config
      = [] ∧
    (initConfig (sampleWorld "" "/opt/mcs/mcs.json" sampleJson) Proc.start).proc.stdout = [] ∧
    selectedFile (sampleWorld "" "/opt/mcs/mcs-cli/mcs.json" sampleJson)
      = some "/opt/mcs/mcs-cli/mcs.json" :=
  ⟨by decide, rfl, rfl, rfl, rfl, rfl, rfl⟩

end MmcCli
